import Mathlib

/-!
Verification development for the openclaw-node-kobo agent.

The definitions below are shallow embeddings of the Go source:
Go durations (`time.Duration`, int64 nanoseconds) become `Int` counts of
nanoseconds, byte slices become `List Nat`, fallible functions return
`Option`/`Except`, and the stateful client loops become explicit step
functions over small state records.  Each definition carries a comment
naming the Go function it embeds.
-/

namespace OpenclawKobo

/-! ## Durations (Go `time` package constants, in nanoseconds) -/

def millisecond : Int := 1000000

def second : Int := 1000000000

/-! ## `BuildDeviceAuthPayload` (internal/gateway/protocol.go) -/

/-- Embeds `BuildDeviceAuthPayload`: `strings.Join(scopes, ",")` is
`String.intercalate ","`, `strconv.FormatInt(signedAtMs, 10)` is `toString`
on `Int`, and the final `strings.Join(parts, "|")` is
`String.intercalate "|"`. -/
def BuildDeviceAuthPayload (deviceID clientID clientMode role : String)
    (scopes : List String) (signedAtMs : Int) (token nonce : String) : String :=
  let scopeValue := String.intercalate "," scopes
  let version := if nonce ≠ "" then "v2" else "v1"
  let parts := [version, deviceID, clientID, clientMode, role, scopeValue,
    toString signedAtMs, token]
  let parts := if version = "v2" then parts ++ [nonce] else parts
  String.intercalate "|" parts

/-! ## Reconnect backoff (internal/gateway, `Client.Run` / `Client.waitBackoff`
  / `Client.applyBackoffOverride`) -/

/-- Embeds `Client.waitBackoff`: when the context is cancelled the timer is
stopped and `ctx.Err()` is returned with `*backoff` untouched; otherwise,
after the sleep, `*backoff` is doubled when it is below 30 s.  The first
component is `true` when the wait completed (nil error). -/
def waitBackoff (cancelled : Bool) (backoff : Int) : Bool × Int :=
  if cancelled then (false, backoff)
  else (true, if backoff < 30 * second then backoff * 2 else backoff)

/-- A typed error satisfying the `backoffProvider` interface: `target` is the
value returned by `Backoff()`, and `isShutdown` records whether
`errors.Is(err, errGatewayShutdown)` holds. -/
structure BackoffOverride where
  target : Int
  isShutdown : Bool
deriving DecidableEq, Repr

/-- Embeds `Client.applyBackoffOverride`: `none` is an error that does not
implement `backoffProvider` (the `errors.As` test fails).  A non-positive
target is ignored; a gateway-shutdown error replaces the backoff; any other
typed error only raises it (`if *backoff < target`). -/
def applyBackoffOverride (override : Option BackoffOverride) (backoff : Int) : Int :=
  match override with
  | none => backoff
  | some o =>
      if o.target ≤ 0 then backoff
      else if o.isShutdown then o.target
      else if backoff < o.target then o.target else backoff

/-- Embeds the `case "shutdown"` branch of `Client.readLoop`:
`restartMs := payload.RestartExpectedMs; if restartMs <= 0 { restartMs =
int(time.Second / time.Millisecond) }`.  A missing `restartExpectedMs`
field decodes to Go's zero value `0`, hence also takes the `<= 0` branch. -/
def shutdownRestartMs (restartExpectedMs : Int) : Int :=
  if restartExpectedMs ≤ 0 then 1000 else restartExpectedMs

/-- The typed error returned by `Client.readLoop` on an `event "shutdown"`
frame: `backoffError{err: errGatewayShutdown, backoff:
time.Duration(restartMs) * time.Millisecond}`. -/
def shutdownError (restartExpectedMs : Int) : BackoffOverride :=
  { target := shutdownRestartMs restartExpectedMs * millisecond
    isShutdown := true }

/-- One uncancelled trip through the failure path of `Client.Run`:
the backoff after `waitBackoff(ctx, &backoff)` completes. -/
def failedCycleBackoff (backoff : Int) : Int :=
  (waitBackoff false backoff).2

/-- The backoff value held by `Client.Run` after `n` consecutive failed
connect cycles (no typed-error override), starting from the initial
`backoff := time.Second`. -/
def runBackoffAfter (n : Nat) : Int :=
  Nat.rec second (fun _ b => failedCycleBackoff b) n

/-- How one iteration of the `Client.Run` loop ends: the dial fails, the
handshake (`registerNode`) fails with some error, or the handshake
succeeds (resetting `backoff` to one second) and the read loop later
returns an error.  The optional `BackoffOverride` is the typed-error
content consulted by `applyBackoffOverride`. -/
inductive CycleOutcome where
  | connectFailed
  | registerFailed (override : Option BackoffOverride)
  | readLoopEnded (override : Option BackoffOverride)

/-- The backoff value held by `Client.Run` after one more (uncancelled)
iteration: connect failures go straight to `waitBackoff`; handshake and
read-loop failures pass through `applyBackoffOverride` first; a read-loop
failure starts from the reset value `time.Second` because `backoff =
time.Second` runs after a successful `registerNode`. -/
def runCycle (backoff : Int) (outcome : CycleOutcome) : Int :=
  match outcome with
  | .connectFailed => failedCycleBackoff backoff
  | .registerFailed ov => failedCycleBackoff (applyBackoffOverride ov backoff)
  | .readLoopEnded ov => failedCycleBackoff (applyBackoffOverride ov second)

/-! ## Close-error classification (`Client.handleCloseError`,
  `Client.clearDeviceToken`, unnamed gateway client source) -/

/-- `websocket.ClosePolicyViolation`. -/
def closePolicyViolation : Int := 1008

/-- A `*websocket.CloseError` as matched by `errors.As`. -/
structure CloseError where
  code : Int
  text : String
deriving DecidableEq, Repr

/-- The read-side error fed to `handleCloseError`: either a websocket close
error or some other error (the `errors.As` test fails for the latter). -/
inductive ReadError where
  | close (e : CloseError)
  | other (msg : String)
deriving DecidableEq, Repr

/-- Embeds Go's `strings.Contains(hay, needle)` as infix membership of the
character lists. -/
def strContains (hay needle : String) : Bool :=
  decide (needle.data <:+: hay.data)

/-- ASCII case folding for one character (the close reasons compared by
`handleCloseError` are ASCII, where Go's `strings.ToLower` acts exactly
like this). -/
def charToLower (c : Char) : Char :=
  if 'A' ≤ c ∧ c ≤ 'Z' then Char.ofNat (c.toNat + 32) else c

/-- Embeds `strings.ToLower` on the ASCII close reasons. -/
def strToLower (s : String) : String :=
  String.mk (s.data.map charToLower)

/-- The device-token state touched by `clearDeviceToken`: the in-memory
token, the configured path, and whether the persisted file exists. -/
structure TokenState where
  deviceToken : String
  deviceTokenPath : String
  tokenFileExists : Bool
deriving DecidableEq, Repr

/-- Embeds `Client.clearDeviceToken`.  `ClearDeviceToken(path)` itself is
absent from the sources (only its tests and this caller survive); its
file-removal effect is modelled from the spec: "device token mismatch"
clears the persisted token, i.e. the token file is removed on disk, with
an empty path meaning nothing is persisted. -/
def clearDeviceToken (s : TokenState) : TokenState :=
  if s.deviceToken = "" ∧ s.deviceTokenPath = "" then s
  else
    let s1 : TokenState := { s with deviceToken := "" }
    if s1.deviceTokenPath = "" then s1
    else { s1 with tokenFileExists := false }

/-- The error value returned by `handleCloseError`: the original error, the
original error with a typed backoff attached, or the original error after
the token was cleared (the code returns `err` unchanged in that branch). -/
inductive CloseOutcome where
  | plain
  | withBackoff (b : Int)
deriving DecidableEq, Repr

/-- Embeds `Client.handleCloseError`: non-close and non-policy-violation
errors pass through; the lowered reason is then tested for
"pairing required", "device identity required" (each returning a typed
10 s backoff error with the token untouched) and finally
"device token mismatch" (clearing the token, returning the error as-is). -/
def handleCloseError (s : TokenState) (err : ReadError) : CloseOutcome × TokenState :=
  match err with
  | .other _ => (.plain, s)
  | .close e =>
      if e.code ≠ closePolicyViolation then (.plain, s)
      else
        let reason := strToLower e.text
        if strContains reason "pairing required" then
          (.withBackoff (10 * second), s)
        else if strContains reason "device identity required" then
          (.withBackoff (10 * second), s)
        else if strContains reason "device token mismatch" then
          (.plain, clearDeviceToken s)
        else (.plain, s)

/-! ## Handshake challenge handling (`Client.registerNode`, unnamed gateway
  client source) -/

/-- The events the `registerNode` loop can receive before the connect
response arrives.  Only `connect.challenge` events can cause an outbound
`connect` frame; `tick`, unknown events and stray frames are skipped. -/
inductive HandshakeEvent where
  | challenge (nonce : String)
  | tick
  | unknown
deriving DecidableEq, Repr

/-- The handshake-local state of `registerNode`: the last accepted nonce
(initially `""`), the `connectSent` flag, and — for specification purposes —
the list of nonces at which a `connect` frame was actually written, in
order. -/
structure HandshakeState where
  nonce : String
  connectSent : Bool
  sent : List String
deriving DecidableEq, Repr

def handshakeInit : HandshakeState :=
  { nonce := "", connectSent := false, sent := [] }

/-- Embeds one iteration of the `registerNode` event loop on an incoming
event frame.  For `connect.challenge`: an empty payload nonce or one equal
to the stored nonce is skipped (`continue`); otherwise the nonce is
adopted and, when no `connect` frame has been sent yet, `sendConnect`
fires exactly once. -/
def handshakeStep (s : HandshakeState) (ev : HandshakeEvent) : HandshakeState :=
  match ev with
  | .tick => s
  | .unknown => s
  | .challenge n =>
      if n = "" ∨ n = s.nonce then s
      else
        let s1 : HandshakeState := { s with nonce := n }
        if s.connectSent then s1
        else { s1 with connectSent := true, sent := s.sent ++ [n] }

/-- The handshake state after processing a sequence of incoming events from
the initial state of `registerNode`. -/
def runHandshake (evs : List HandshakeEvent) : HandshakeState :=
  evs.foldl handshakeStep handshakeInit

/-! ## Power manager (internal/power/power.go) -/

/-- The callbacks observable during `Manager.Suspend`, in invocation
order. -/
inductive PowerEvent where
  | onSuspend
  | sleep
  | onResume
  | resetIdle
deriving DecidableEq, Repr

/-- The fields of `power.Manager` that `Suspend`/`canSuspend` read or
write.  `hasOnSuspend`/`hasOnResume` record whether the respective
callback is non-nil; `suspending` is the atomic flag read by the
compare-and-swap. -/
structure PowerManager where
  suspendEnabled : Bool
  suspending : Bool
  wifiBusy : Bool
  commandBusy : Bool
  lastWakeNano : Int
  debounce : Int
  hasOnSuspend : Bool
  hasOnResume : Bool
deriving DecidableEq, Repr

/-- Embeds `Manager.canSuspend` at time `now` (`m.clock.Now().UnixNano()`
as an `Int`): busy flags block, and a recorded wake (`lastWakeNano != 0`)
closer than `debounce` blocks. -/
def canSuspend (m : PowerManager) (now : Int) : Bool :=
  if m.wifiBusy || m.commandBusy then false
  else if m.lastWakeNano ≠ 0 && now - m.lastWakeNano < m.debounce then false
  else true

/-- The result of `Manager.Suspend`. -/
inductive SuspendResult where
  | ok
  | errSuspendInProgress
  | errSuspendBlocked
  | errSleep (msg : String)
deriving DecidableEq, Repr

/-- Embeds `Manager.Suspend`.  `sleepErr` is the outcome of the pluggable
`suspendFunc` (`some msg` = failure).  Returns the result, the manager
state after the call (the deferred `suspending.Store(false)` always runs),
and the trace of callback invocations in order. -/
def Suspend (m : PowerManager) (now : Int) (sleepErr : Option String) :
    SuspendResult × PowerManager × List PowerEvent :=
  if !m.suspendEnabled then (.ok, m, [])
  else if m.suspending then (.errSuspendInProgress, m, [])
  else
    -- compare-and-swap succeeded; the deferred store returns `suspending`
    -- to false on every exit path below.
    if !canSuspend m now then (.errSuspendBlocked, m, [])
    else
      let pre := if m.hasOnSuspend then [PowerEvent.onSuspend] else []
      match sleepErr with
      | some msg => (.errSleep msg, m, pre ++ [PowerEvent.sleep])
      | none =>
          let m1 : PowerManager := { m with lastWakeNano := now }
          (.ok, m1,
            pre ++ [PowerEvent.sleep]
              ++ (if m.hasOnResume then [PowerEvent.onResume] else [])
              ++ [PowerEvent.resetIdle])

/-! ## JSON values and the A2UI data model (internal/canvas, unnamed a2ui
  source) -/

/-- A parsed JSON document.  Numbers are restricted to integers, which
covers every payload relevant to the A2UI decoder (all numeric fields of
`A2UIComponent` are integral). -/
inductive JVal where
  | null
  | bool (b : Bool)
  | num (n : Int)
  | str (s : String)
  | arr (elems : List JVal)
  | obj (fields : List (String × JVal))

/-- `canvas.A2UIAction`: `Type string` plus `Payload json.RawMessage`.
The raw payload bytes are modelled by the JSON value they spell; a `nil`
raw message is `none`. -/
structure A2UIAction where
  type : String
  payload : Option JVal

/-- `canvas.A2UIStyle`: two optional `*uint8` fields. -/
structure A2UIStyle where
  fillGray : Option Int
  strokeGray : Option Int
deriving DecidableEq, Repr

/-- The scalar fields of `canvas.A2UIComponent`.  Lean structures cannot be
recursive, so the Go struct is split into this record plus the recursive
`children` list in `A2UIComponent` below; the grouping carries exactly the
source's fields. -/
structure A2UIComponentCore where
  id : String
  type : String
  x : Int
  y : Int
  width : Int
  height : Int
  text : String
  fontSize : Int
  align : String
  padding : Int
  action : Option A2UIAction
  style : Option A2UIStyle

/-- `canvas.A2UIComponent`: the scalar fields plus the recursive
`Children []A2UIComponent`. -/
inductive A2UIComponent where
  | mk (core : A2UIComponentCore) (children : List A2UIComponent)

def A2UIComponent.core : A2UIComponent → A2UIComponentCore
  | .mk c _ => c

def A2UIComponent.children : A2UIComponent → List A2UIComponent
  | .mk _ ch => ch

def A2UIComponent.type (c : A2UIComponent) : String := c.core.type

/-- The zero value of `A2UIComponent`, as produced by `var comp
A2UIComponent` before `json.Unmarshal` fills it in. -/
def defaultComponentCore : A2UIComponentCore :=
  { id := "", type := "", x := 0, y := 0, width := 0, height := 0
    text := "", fontSize := 0, align := "", padding := 0
    action := none, style := none }

def defaultComponent : A2UIComponent := .mk defaultComponentCore []

/-- `canvas.A2UIPush`: `Components []A2UIComponent` plus `Replace bool`. -/
structure A2UIPush where
  components : List A2UIComponent
  replace : Bool

/-- The zero value of `A2UIPush` (`var push A2UIPush`). -/
def defaultPush : A2UIPush := { components := [], replace := false }

/-! ### `encoding/json` unmarshalling into the A2UI structs

Go's `json.Unmarshal` walks the JSON object fields in order, matching each
key against the struct's JSON tags case-insensitively (later duplicates
overwrite earlier ones), ignoring unknown keys, leaving a field untouched
on JSON `null`, and failing on a type mismatch.  The functions below embed
that behaviour for `A2UIStyle`, `A2UIAction`, `A2UIComponent` and
`A2UIPush`. -/

/-- Unmarshal a JSON value into a `*uint8` target (`fillGray`,
`strokeGray`): a number in `[0, 256)` is accepted, `null` leaves the
pointer nil, anything else is a type error.  The untouched case is
signalled by returning the previous value. -/
def unmarshalUint8Opt (prev : Option Int) (v : JVal) : Option (Option Int) :=
  match v with
  | .null => some prev
  | .num n => if 0 ≤ n ∧ n < 256 then some (some n) else none
  | _ => none

/-- Unmarshal into a `string` field. -/
def unmarshalStringField (prev : String) (v : JVal) : Option String :=
  match v with
  | .null => some prev
  | .str s => some s
  | _ => none

/-- Unmarshal into an `int` (or integral `float64`) field. -/
def unmarshalIntField (prev : Int) (v : JVal) : Option Int :=
  match v with
  | .null => some prev
  | .num n => some n
  | _ => none

/-- Unmarshal into a `bool` field. -/
def unmarshalBoolField (prev : Bool) (v : JVal) : Option Bool :=
  match v with
  | .null => some prev
  | .bool b => some b
  | _ => none

/-- Unmarshal the fields of an `A2UIStyle` object, in order. -/
def styleFields (st : A2UIStyle) : List (String × JVal) → Option A2UIStyle
  | [] => some st
  | (k, v) :: rest =>
      let key := strToLower k
      if key = "fillgray" then
        match unmarshalUint8Opt st.fillGray v with
        | some g => styleFields { st with fillGray := g } rest
        | none => none
      else if key = "strokegray" then
        match unmarshalUint8Opt st.strokeGray v with
        | some g => styleFields { st with strokeGray := g } rest
        | none => none
      else styleFields st rest

/-- Unmarshal into the `*A2UIStyle` field. -/
def unmarshalStyleOpt (prev : Option A2UIStyle) (v : JVal) : Option (Option A2UIStyle) :=
  match v with
  | .null => some prev
  | .obj fields =>
      match styleFields { fillGray := none, strokeGray := none } fields with
      | some st => some (some st)
      | none => none
  | _ => none

/-- Unmarshal the fields of an `A2UIAction` object, in order.  The
`payload` field has type `json.RawMessage`, which captures the raw value
verbatim whatever its shape. -/
def actionFields (a : A2UIAction) : List (String × JVal) → Option A2UIAction
  | [] => some a
  | (k, v) :: rest =>
      let key := strToLower k
      if key = "type" then
        match unmarshalStringField a.type v with
        | some s => actionFields { a with type := s } rest
        | none => none
      else if key = "payload" then
        actionFields { a with payload := some v } rest
      else actionFields a rest

/-- Unmarshal into the `*A2UIAction` field. -/
def unmarshalActionOpt (prev : Option A2UIAction) (v : JVal) : Option (Option A2UIAction) :=
  match v with
  | .null => some prev
  | .obj fields =>
      match actionFields { type := "", payload := none } fields with
      | some a => some (some a)
      | none => none
  | _ => none

/-- Unmarshal one scalar (non-`children`) field of `A2UIComponent` keyed by
the lower-cased JSON key; unknown keys are ignored. -/
def componentScalarField (c : A2UIComponentCore) (key : String) (v : JVal) :
    Option A2UIComponentCore :=
  if key = "id" then
    (unmarshalStringField c.id v).map (fun s => { c with id := s })
  else if key = "type" then
    (unmarshalStringField c.type v).map (fun s => { c with type := s })
  else if key = "x" then
    (unmarshalIntField c.x v).map (fun n => { c with x := n })
  else if key = "y" then
    (unmarshalIntField c.y v).map (fun n => { c with y := n })
  else if key = "width" then
    (unmarshalIntField c.width v).map (fun n => { c with width := n })
  else if key = "height" then
    (unmarshalIntField c.height v).map (fun n => { c with height := n })
  else if key = "text" then
    (unmarshalStringField c.text v).map (fun s => { c with text := s })
  else if key = "fontsize" then
    (unmarshalIntField c.fontSize v).map (fun n => { c with fontSize := n })
  else if key = "align" then
    (unmarshalStringField c.align v).map (fun s => { c with align := s })
  else if key = "padding" then
    (unmarshalIntField c.padding v).map (fun n => { c with padding := n })
  else if key = "action" then
    (unmarshalActionOpt c.action v).map (fun a => { c with action := a })
  else if key = "style" then
    (unmarshalStyleOpt c.style v).map (fun st => { c with style := st })
  else some c

mutual

/-- `json.Unmarshal` into an `A2UIComponent`: the document must be an
object. -/
def unmarshalA2UIComponent (v : JVal) : Option A2UIComponent :=
  match v with
  | .obj fields => componentFields defaultComponentCore [] fields
  | _ => none

/-- Walk the object fields of a component, carrying the scalar core and
the children decoded so far. -/
def componentFields (c : A2UIComponentCore) (children : List A2UIComponent) :
    List (String × JVal) → Option A2UIComponent
  | [] => some (.mk c children)
  | (k, v) :: rest =>
      let key := strToLower k
      if key = "children" then
        match v with
        | .null => componentFields c children rest
        | .arr xs =>
            match componentList xs with
            | some cs => componentFields c cs rest
            | none => none
        | _ => none
      else
        match componentScalarField c key v with
        | some c1 => componentFields c1 children rest
        | none => none

/-- Unmarshal a JSON array into `[]A2UIComponent`, element by element. -/
def componentList : List JVal → Option (List A2UIComponent)
  | [] => some []
  | x :: rest =>
      match unmarshalA2UIComponent x, componentList rest with
      | some c, some cs => some (c :: cs)
      | _, _ => none

end

/-- Walk the object fields of an `A2UIPush`. -/
def pushFields (p : A2UIPush) : List (String × JVal) → Option A2UIPush
  | [] => some p
  | (k, v) :: rest =>
      let key := strToLower k
      if key = "components" then
        match v with
        | .null => pushFields p rest
        | .arr xs =>
            match componentList xs with
            | some cs => pushFields { p with components := cs } rest
            | none => none
        | _ => none
      else if key = "replace" then
        match unmarshalBoolField p.replace v with
        | some b => pushFields { p with replace := b } rest
        | none => none
      else pushFields p rest

/-- `json.Unmarshal` into an `A2UIPush`: the document must be an object. -/
def unmarshalA2UIPush (v : JVal) : Option A2UIPush :=
  match v with
  | .obj fields => pushFields defaultPush fields
  | _ => none

/-- The bare-component fallback of `DecodeA2UIPush`. -/
def decodeBareComponent (v : JVal) : Except String A2UIPush :=
  match unmarshalA2UIComponent v with
  | some comp =>
      if comp.type ≠ "" then .ok { components := [comp], replace := false }
      else .error "invalid A2UI payload"
  | none => .error "invalid A2UI payload"

/-- Embeds `DecodeA2UIPush`: accept a push envelope when it unmarshals and
has a non-empty components list; otherwise accept a bare component with a
non-empty type tag; otherwise fail with `"invalid A2UI payload"`. -/
def DecodeA2UIPush (v : JVal) : Except String A2UIPush :=
  match unmarshalA2UIPush v with
  | some push =>
      if push.components.length > 0 then .ok push
      else decodeBareComponent v
  | none => decodeBareComponent v

/-! ## A2UI scene state (`A2UIState`) -/

/-- Embeds `A2UIState.ApplyPush`: `Replace` substitutes the list
(`append([]A2UIComponent{}, push.Components...)`), otherwise the pushed
components are appended. -/
def ApplyPush (components : List A2UIComponent) (push : A2UIPush) :
    List A2UIComponent :=
  if push.replace then push.components else components ++ push.components

/-- Embeds `A2UIState.Reset`: the component list becomes nil. -/
def sceneReset (_components : List A2UIComponent) : List A2UIComponent := []

/-- A sequence of pushes applied in order (`for _, push := range pushes`
in `handleA2UIPushJSONL`, or repeated `canvas.a2ui.push` commands). -/
def applyPushes (components : List A2UIComponent) (pushes : List A2UIPush) :
    List A2UIComponent :=
  pushes.foldl ApplyPush components

/-- The effect of `Handler.handleA2UIPush` on the scene state: a decode
error returns before `ApplyPush`, leaving the scene untouched. -/
def handleA2UIPushScene (components : List A2UIComponent) (v : JVal) :
    List A2UIComponent :=
  match DecodeA2UIPush v with
  | .error _ => components
  | .ok push => ApplyPush components push

/-- Written from the spec's words, for comparison with the code-derived
`applyPushes`: "the number of components in the scene equals the sum of
the component counts of the pushes since (and including) the last replace
push" — a replace push resets the running total to its own count. -/
def specComponentTotal (pushes : List A2UIPush) : Nat :=
  pushes.foldl
    (fun acc p => if p.replace then p.components.length
      else acc + p.components.length) 0

/-! ## Hit-testing and touch handling (internal/canvas/renderer.go
  `Renderer.HitTest`, unnamed canvas handler source `Handler.HandleTouch`) -/

/-- An `image.Rectangle` as used by the hit-target list. -/
structure Rect where
  minX : Int
  minY : Int
  maxX : Int
  maxY : Int
deriving DecidableEq, Repr

/-- `canvas.HitTarget`: a rectangle plus the associated action. -/
structure HitTarget where
  rect : Rect
  action : A2UIAction

/-- Embeds `Renderer.HitTest`: walk the hit-target list in insertion
order and return the first action whose rectangle contains `(x, y)`
(half-open on the max edges). -/
def HitTest (targets : List HitTarget) (x y : Int) : Option A2UIAction :=
  match targets with
  | [] => none
  | hit :: rest =>
      if x ≥ hit.rect.minX && x < hit.rect.maxX
          && y ≥ hit.rect.minY && y < hit.rect.maxY then
        some hit.action
      else HitTest rest x y

/-- The observable effect of one `ActionSender.SendEvent` call made by
`HandleTouch`: the method string passed to the sender and the payload map
`{"type": …, "payload": …, "x": …, "y": …, "time": …}`. -/
structure SentEvent where
  method : String
  payloadType : String
  payloadRaw : Option JVal
  x : Int
  y : Int
  time : Int

/-- Embeds `Handler.HandleTouch`: hit-test against the last rendered
hit-target list; when there is no match or no sender, return without
sending; otherwise call `h.sender.SendEvent(ctx, "canvas.a2ui.action",
payload)` with the payload map built from the action and the touch.
`now` is `time.Now().UnixMilli()`. -/
def HandleTouch (targets : List HitTarget) (senderConfigured : Bool)
    (x y now : Int) : Option SentEvent :=
  match HitTest targets x y with
  | none => none
  | some action =>
      if !senderConfigured then none
      else
        some { method := "canvas.a2ui.action"
               payloadType := action.type
               payloadRaw := action.payload
               x := x, y := y, time := now }

/-- The hit target produced by rendering the scenario-3 payload of the
spec: a 10×10 box at the origin carrying a `tap` action with raw payload
`{"foo":"bar"}`. -/
def tapTarget : HitTarget :=
  { rect := { minX := 0, minY := 0, maxX := 10, maxY := 10 }
    action := { type := "tap"
                payload := some (JVal.obj [("foo", JVal.str "bar")]) } }

/-! ## Device identity (internal/gateway/protocol.go
  `LoadOrCreateIdentity`, `deviceIDFromPublicKey`) -/

/-- The on-disk `deviceIdentityFile` JSON record. -/
structure DeviceIdentityFile where
  version : Int
  deviceID : String
  publicKeyPem : String
  privateKeyPem : String
  createdAtMs : Int
deriving DecidableEq, Repr

/-- The state of the identity file on disk: absent (`os.ErrNotExist`),
unreadable or unparsable (`json.Unmarshal` error, or any other read
error), or a parsed record. -/
inductive IdentityFs where
  | absent
  | corrupt
  | stored (f : DeviceIdentityFile)
deriving DecidableEq, Repr

/-- `gateway.DeviceIdentity`: the exported fields plus the parsed raw
keys (byte slices as lists of byte values). -/
structure DeviceIdentity where
  deviceID : String
  publicKeyPem : String
  privateKeyPem : String
  publicKey : List Nat
  privateKey : List Nat
deriving DecidableEq, Repr

/-- The cryptographic and environmental primitives `LoadOrCreateIdentity`
calls into: SHA-256, PEM/PKIX/PKCS#8 parsing and marshalling, the
freshly generated Ed25519 keypair, and the wall clock.  These live in the
Go standard library, outside this repository, so the embedding abstracts
over them; every theorem quantifies over this record. -/
structure CryptoEnv where
  sha256 : List Nat → List Nat
  parsePublicKeyPem : String → Option (List Nat)
  parsePrivateKeyPem : String → Option (List Nat)
  generatedPublicKey : List Nat
  generatedPrivateKey : List Nat
  marshalPublicKeyPem : List Nat → Option String
  marshalPrivateKeyPem : List Nat → Option String
  nowMs : Int

/-- The lowercase hex digit for a value below 16: Go's `encoding/hex`
indexes the table `"0123456789abcdef"`, whose entry `n` is `'0' + n` for
`n < 10` and `'a' + (n - 10)` otherwise. -/
def hexDigitChar (n : Nat) : Char :=
  if n < 10 then Char.ofNat (48 + n) else Char.ofNat (87 + n)

/-- One byte as its two lowercase hex digits (`b >> 4`, `b & 0xf`; the
`% 16` keeps the high digit total on arbitrary `Nat`, and is the identity
on byte values). -/
def byteHex (b : Nat) : List Char :=
  [hexDigitChar (b / 16 % 16), hexDigitChar (b % 16)]

/-- Embeds `hex.EncodeToString`: lowercase hex, two digits per byte. -/
def hexEncodeBytes (bs : List Nat) : String :=
  String.mk (bs.map byteHex).flatten

/-- Embeds `deviceIDFromPublicKey`: lowercase hex of the SHA-256 of the
raw public key. -/
def deviceIDFromPublicKey (sha256 : List Nat → List Nat)
    (publicKey : List Nat) : String :=
  hexEncodeBytes (sha256 publicKey)

/-- Embeds `LoadOrCreateIdentity`.  The load path validates the stored
PEMs, parses both keys, derives the device ID and rewrites the file when
the stored ID is empty or differs; the create path generates a keypair,
derives the ID and writes a fresh file.  File writes are modelled as
succeeding (the source ignores errors of the rewrite and a failing
initial write is an error return not relevant to the claims). -/
def LoadOrCreateIdentity (env : CryptoEnv) (fs : IdentityFs) :
    Option (DeviceIdentity × IdentityFs) :=
  match fs with
  | .corrupt => none
  | .stored f =>
      if f.publicKeyPem = "" ∨ f.privateKeyPem = "" then none
      else
        match env.parsePublicKeyPem f.publicKeyPem,
            env.parsePrivateKeyPem f.privateKeyPem with
        | some pub, some priv =>
            let derivedID := deviceIDFromPublicKey env.sha256 pub
            if f.deviceID = "" ∨ f.deviceID ≠ derivedID then
              some ({ deviceID := derivedID
                      publicKeyPem := f.publicKeyPem
                      privateKeyPem := f.privateKeyPem
                      publicKey := pub, privateKey := priv },
                .stored { f with deviceID := derivedID })
            else
              some ({ deviceID := f.deviceID
                      publicKeyPem := f.publicKeyPem
                      privateKeyPem := f.privateKeyPem
                      publicKey := pub, privateKey := priv },
                .stored f)
        | _, _ => none
  | .absent =>
      match env.marshalPublicKeyPem env.generatedPublicKey,
          env.marshalPrivateKeyPem env.generatedPrivateKey with
      | some publicPem, some privatePem =>
          let deviceID := deviceIDFromPublicKey env.sha256 env.generatedPublicKey
          some ({ deviceID := deviceID
                  publicKeyPem := publicPem
                  privateKeyPem := privatePem
                  publicKey := env.generatedPublicKey
                  privateKey := env.generatedPrivateKey },
            .stored { version := 1, deviceID := deviceID
                      publicKeyPem := publicPem, privateKeyPem := privatePem
                      createdAtMs := env.nowMs })
      | _, _ => none

/-! # Theorems -/

/-! ## C7: device-auth payload format -/

/-- C7: `BuildDeviceAuthPayload` returns
`v2|deviceId|clientId|clientMode|role|scopeCsv|signedAtMs|token|nonce`
when the nonce is non-empty and
`v1|deviceId|clientId|clientMode|role|scopeCsv|signedAtMs|token` when it
is empty, where `scopeCsv` is the comma-join of the scopes (empty for no
scopes; a nil and an empty Go slice both embed to `[]`, so the two
payloads coincide by construction). -/
theorem buildDeviceAuthPayload_format (deviceID clientID clientMode role : String)
    (scopes : List String) (signedAtMs : Int) (token nonce : String) :
    (nonce ≠ "" →
      BuildDeviceAuthPayload deviceID clientID clientMode role scopes signedAtMs token nonce
        = "v2" ++ "|" ++ deviceID ++ "|" ++ clientID ++ "|" ++ clientMode ++ "|" ++ role
          ++ "|" ++ String.intercalate "," scopes ++ "|" ++ toString signedAtMs ++ "|"
          ++ token ++ "|" ++ nonce)
    ∧ (nonce = "" →
      BuildDeviceAuthPayload deviceID clientID clientMode role scopes signedAtMs token nonce
        = "v1" ++ "|" ++ deviceID ++ "|" ++ clientID ++ "|" ++ clientMode ++ "|" ++ role
          ++ "|" ++ String.intercalate "," scopes ++ "|" ++ toString signedAtMs ++ "|"
          ++ token)
    ∧ String.intercalate "," ([] : List String) = "" := by
  refine ⟨?_, ?_, rfl⟩
  · intro h
    simp only [BuildDeviceAuthPayload, if_pos h]
    rfl
  · intro h
    subst h
    simp only [BuildDeviceAuthPayload]
    rfl

/-- Witness for C7 at the concrete vector of
`TestBuildDeviceAuthPayloadFormat`. -/
theorem buildDeviceAuthPayload_format_witness :
    BuildDeviceAuthPayload "device-id" "client-id" "client-mode" "node"
        ["scope-a", "scope-b"] 1700000000000 "token-value" "nonce-value"
      = "v2|device-id|client-id|client-mode|node|scope-a,scope-b|1700000000000|token-value|nonce-value" := by
  rw [(buildDeviceAuthPayload_format "device-id" "client-id" "client-mode" "node"
    ["scope-a", "scope-b"] 1700000000000 "token-value" "nonce-value").1 (by decide)]
  rfl

/-! ## C3: reconnect backoff dynamics -/

theorem runBackoffAfter_succ (n : Nat) :
    runBackoffAfter (n + 1) = failedCycleBackoff (runBackoffAfter n) := rfl

theorem runBackoffAfter_pow (n : Nat) :
    ∃ k : Nat, k ≤ 5 ∧ runBackoffAfter n = 2 ^ k * second := by
  induction n with
  | zero => exact ⟨0, by norm_num, by norm_num [runBackoffAfter]⟩
  | succ n ih =>
      obtain ⟨k, hk5, hval⟩ := ih
      rw [runBackoffAfter_succ, hval]
      by_cases hk : k ≤ 4
      · refine ⟨k + 1, by omega, ?_⟩
        have h16 : (2 : Int) ^ k ≤ 16 := by
          interval_cases k <;> norm_num
        have hlt : (2 : Int) ^ k * second < 30 * second := by
          have hsec : (0 : Int) < second := by norm_num [second]
          nlinarith
        simp only [failedCycleBackoff, waitBackoff, Bool.false_eq_true,
          if_false, if_pos hlt]
        ring
      · have hk5' : k = 5 := by omega
        subst hk5'
        refine ⟨5, le_refl 5, ?_⟩
        have hge : ¬ ((2 : Int) ^ 5 * second < 30 * second) := by
          norm_num [second]
        simp only [failedCycleBackoff, waitBackoff, Bool.false_eq_true,
          if_false, if_neg hge]

/-- C3 (counterexample): after five consecutive failed connect cycles the
backoff value is 32 s, which exceeds the claimed 30 s cap — the source
doubles whenever the current value is below 30 s, so 16 s doubles to
32 s. -/
theorem backoff_exceeds_30s :
    runBackoffAfter 5 = 32 * second ∧ 30 * second < runBackoffAfter 5 := by
  constructor <;> decide

/-- C3 (amended): the reconnect backoff starts at 1 s, doubles after a
failed cycle while the current value is below 30 s (and is left unchanged
once at or above 30 s), so along any sequence of failed cycles it never
exceeds 32 s; a `waitBackoff` whose context is cancelled returns the
context error and leaves the value unchanged; a successful handshake
resets the backoff to 1 s before the read loop runs (so a read-loop
failure continues from 1 s, not from the previous value). -/
theorem backoff_dynamics :
    runBackoffAfter 0 = second
    ∧ (∀ b : Int, b < 30 * second → failedCycleBackoff b = b * 2)
    ∧ (∀ b : Int, 30 * second ≤ b → failedCycleBackoff b = b)
    ∧ (∀ n : Nat, runBackoffAfter n ≤ 32 * second)
    ∧ (∀ b : Int, waitBackoff true b = (false, b))
    ∧ (∀ (b : Int) (ov : Option BackoffOverride),
        runCycle b (.readLoopEnded ov)
          = failedCycleBackoff (applyBackoffOverride ov second)) := by
  refine ⟨rfl, ?_, ?_, ?_, fun b => rfl, fun b ov => rfl⟩
  · intro b hb
    simp [failedCycleBackoff, waitBackoff, hb]
  · intro b hb
    simp [failedCycleBackoff, waitBackoff, not_lt.mpr hb]
  · intro n
    obtain ⟨k, hk5, hval⟩ := runBackoffAfter_pow n
    rw [hval]
    have h32 : (2 : Int) ^ k ≤ 32 := by
      interval_cases k <;> norm_num
    have hsec : (0 : Int) ≤ second := by norm_num [second]
    nlinarith

/-- Witness for C3 (amended) at concrete values: 16 s doubles, 30 s
stays, and a cancelled wait at 4 s preserves 4 s. -/
theorem backoff_dynamics_witness :
    (16 * second < 30 * second ∧ failedCycleBackoff (16 * second) = 16 * second * 2)
    ∧ (30 * second ≤ 30 * second ∧ failedCycleBackoff (30 * second) = 30 * second)
    ∧ waitBackoff true (4 * second) = (false, 4 * second) :=
  ⟨⟨by decide, backoff_dynamics.2.1 (16 * second) (by decide)⟩,
   ⟨le_refl _, backoff_dynamics.2.2.1 (30 * second) (le_refl _)⟩,
   backoff_dynamics.2.2.2.2.1 (4 * second)⟩

/-! ## C4: gateway-shutdown backoff override -/

/-- C4: an `event "shutdown"` frame terminates the read loop with a typed
gateway-shutdown error whose advertised backoff is
`restartExpectedMs` milliseconds, or 1 s when the field is missing or
non-positive (a missing field decodes to `0`); `applyBackoffOverride`
on that error replaces the current backoff with the advertised value
unconditionally — even when the current backoff is larger. -/
theorem shutdown_backoff_override (restartExpectedMs b : Int) :
    (0 < restartExpectedMs →
      (shutdownError restartExpectedMs).target = restartExpectedMs * millisecond)
    ∧ (restartExpectedMs ≤ 0 → (shutdownError restartExpectedMs).target = second)
    ∧ applyBackoffOverride (some (shutdownError restartExpectedMs)) b
        = (shutdownError restartExpectedMs).target := by
  refine ⟨?_, ?_, ?_⟩
  · intro h
    simp [shutdownError, shutdownRestartMs, not_le.mpr h]
  · intro h
    simp [shutdownError, shutdownRestartMs, h, second, millisecond]
  · have hpos : 0 < shutdownRestartMs restartExpectedMs * millisecond := by
      by_cases h : restartExpectedMs ≤ 0
      · simp [shutdownRestartMs, h, millisecond]
      · have hr : 0 < restartExpectedMs := by omega
        simp only [shutdownRestartMs, if_neg h]
        exact mul_pos hr (by norm_num [millisecond])
    simp [applyBackoffOverride, shutdownError, not_le.mpr hpos]

/-- Witness for C4: a shutdown advertising 5000 ms replaces a 30 s
backoff with 5 s (a strict decrease), and a missing/zero field advertises
1 s. -/
theorem shutdown_backoff_override_witness :
    ((0 : Int) < 5000 ∧ (shutdownError 5000).target = 5000 * millisecond)
    ∧ applyBackoffOverride (some (shutdownError 5000)) (30 * second)
        = (shutdownError 5000).target
    ∧ ((0 : Int) ≤ 0 ∧ (shutdownError 0).target = second) :=
  ⟨⟨by decide, (shutdown_backoff_override 5000 (30 * second)).1 (by decide)⟩,
   (shutdown_backoff_override 5000 (30 * second)).2.2,
   ⟨le_refl _, (shutdown_backoff_override 0 0).2.1 (le_refl _)⟩⟩

/-! ## C5: close-error classification -/

/-- C5 (counterexample): a policy-violation close whose reason contains
both "pairing required" and "device token mismatch" satisfies the
claim's token-clearing condition, yet the source checks "pairing
required" first and returns the 10 s backoff with the token left fully
intact — the token is not cleared and the file is not removed. -/
theorem handleCloseError_counterexample :
    strContains (strToLower "Pairing required; device token mismatch")
        "device token mismatch" = true
    ∧ handleCloseError
        { deviceToken := "tok"
          deviceTokenPath := "/etc/openclaw/device-token.json"
          tokenFileExists := true }
        (.close { code := closePolicyViolation
                  text := "Pairing required; device token mismatch" })
      = (.withBackoff (10 * second),
         { deviceToken := "tok"
           deviceTokenPath := "/etc/openclaw/device-token.json"
           tokenFileExists := true }) := by
  constructor <;> decide

/-- C5 (amended): `handleCloseError` leaves the token untouched for
non-close errors and non-policy-violation codes; on a policy-violation
close it checks the lowered reason in order — "pairing required", then
"device identity required" (both returning a 10 s-minimum typed backoff
with the token intact), and only otherwise "device token mismatch"
(clearing the in-memory token and removing the persisted file); any
other reason passes through unchanged. -/
theorem handleCloseError_spec (s : TokenState) (e : CloseError)
    (hpath : s.deviceTokenPath ≠ "") :
    (e.code ≠ closePolicyViolation → handleCloseError s (.close e) = (.plain, s))
    ∧ (∀ msg, handleCloseError s (.other msg) = (.plain, s))
    ∧ (e.code = closePolicyViolation →
        strContains (strToLower e.text) "pairing required" = true →
        handleCloseError s (.close e) = (.withBackoff (10 * second), s))
    ∧ (e.code = closePolicyViolation →
        strContains (strToLower e.text) "pairing required" = false →
        strContains (strToLower e.text) "device identity required" = true →
        handleCloseError s (.close e) = (.withBackoff (10 * second), s))
    ∧ (e.code = closePolicyViolation →
        strContains (strToLower e.text) "pairing required" = false →
        strContains (strToLower e.text) "device identity required" = false →
        strContains (strToLower e.text) "device token mismatch" = true →
        handleCloseError s (.close e)
          = (.plain, { s with deviceToken := "", tokenFileExists := false }))
    ∧ (e.code = closePolicyViolation →
        strContains (strToLower e.text) "pairing required" = false →
        strContains (strToLower e.text) "device identity required" = false →
        strContains (strToLower e.text) "device token mismatch" = false →
        handleCloseError s (.close e) = (.plain, s)) := by
  refine ⟨?_, fun msg => rfl, ?_, ?_, ?_, ?_⟩
  · intro h
    simp [handleCloseError, h]
  · intro hcode hp
    simp [handleCloseError, hcode, hp]
  · intro hcode hp hd
    simp [handleCloseError, hcode, hp, hd]
  · intro hcode hp hd hm
    simp [handleCloseError, hcode, hp, hd, hm, clearDeviceToken, hpath]
  · intro hcode hp hd hm
    simp [handleCloseError, hcode, hp, hd, hm]

/-- Witness for C5 (amended): a pure "device token mismatch" close clears
the in-memory token and removes the file. -/
theorem handleCloseError_spec_witness :
    handleCloseError
        { deviceToken := "tok"
          deviceTokenPath := "/etc/openclaw/device-token.json"
          tokenFileExists := true }
        (.close { code := 1008, text := "device token mismatch" })
      = (.plain,
         { deviceToken := ""
           deviceTokenPath := "/etc/openclaw/device-token.json"
           tokenFileExists := false }) :=
  (handleCloseError_spec
      { deviceToken := "tok"
        deviceTokenPath := "/etc/openclaw/device-token.json"
        tokenFileExists := true }
      { code := 1008, text := "device token mismatch" }
      (by decide)).2.2.2.2.1 (by decide) (by decide) (by decide) (by decide)

/-! ## C1: handshake challenge discipline -/

theorem handshake_inv_step (s : HandshakeState) (ev : HandshakeEvent)
    (h1 : s.connectSent = false → s.sent = [])
    (h2 : s.sent.length ≤ 1)
    (h3 : ∀ n ∈ s.sent, n ≠ "") :
    ((handshakeStep s ev).connectSent = false → (handshakeStep s ev).sent = [])
    ∧ (handshakeStep s ev).sent.length ≤ 1
    ∧ ∀ n ∈ (handshakeStep s ev).sent, n ≠ "" := by
  cases ev with
  | tick => exact ⟨h1, h2, h3⟩
  | unknown => exact ⟨h1, h2, h3⟩
  | challenge n =>
      by_cases hcond : n = "" ∨ n = s.nonce
      · simpa [handshakeStep, hcond] using ⟨h1, h2, h3⟩
      · by_cases hsent : s.connectSent
        · simpa [handshakeStep, hcond, hsent] using ⟨h2, h3⟩
        · have hempty : s.sent = [] := h1 (by simpa using hsent)
          have hne : n ≠ "" := fun h => hcond (Or.inl h)
          have hne2 : n ≠ s.nonce := fun h => hcond (Or.inr h)
          simp [handshakeStep, hcond, hsent, hempty, hne, hne2]

theorem handshake_inv_fold (evs : List HandshakeEvent) :
    ∀ s : HandshakeState,
      (s.connectSent = false → s.sent = []) →
      s.sent.length ≤ 1 →
      (∀ n ∈ s.sent, n ≠ "") →
      ((evs.foldl handshakeStep s).connectSent = false →
          (evs.foldl handshakeStep s).sent = [])
      ∧ (evs.foldl handshakeStep s).sent.length ≤ 1
      ∧ ∀ n ∈ (evs.foldl handshakeStep s).sent, n ≠ "" := by
  induction evs with
  | nil => intro s h1 h2 h3; exact ⟨h1, h2, h3⟩
  | cons ev rest ih =>
      intro s h1 h2 h3
      obtain ⟨g1, g2, g3⟩ := handshake_inv_step s ev h1 h2 h3
      exact ih (handshakeStep s ev) g1 g2 g3

theorem handshake_fold_id (evs : List HandshakeEvent) :
    ∀ s : HandshakeState,
      (∀ n, HandshakeEvent.challenge n ∈ evs → n = "") →
      evs.foldl handshakeStep s = s := by
  induction evs with
  | nil => intro s _; rfl
  | cons ev rest ih =>
      intro s hall
      have hstep : handshakeStep s ev = s := by
        cases ev with
        | tick => rfl
        | unknown => rfl
        | challenge n =>
            have : n = "" := hall n (List.mem_cons_self _ _)
            simp [handshakeStep, this]
      rw [List.foldl_cons, hstep]
      exact ih s (fun n hn => hall n (List.mem_cons_of_mem _ hn))

theorem nodup_of_length_le_one {α : Type} (l : List α) (h : l.length ≤ 1) :
    l.Nodup := by
  match l with
  | [] => exact List.nodup_nil
  | [a] => exact List.nodup_singleton a
  | a :: b :: rest => simp at h

/-- C1: across any interleaving of handshake events, `registerNode` sends
no `connect` frame before a challenge carrying a non-empty new nonce has
arrived (a sequence of empty-nonce challenges produces no send), sends at
most one `connect` frame per distinct non-empty nonce (the sent list has
no duplicates and no empty nonce — in fact at most one entry in total),
and a challenge whose nonce is empty or equal to the last seen nonce
leaves the state, and hence the outbound frames, unchanged. -/
theorem registerNode_challenge_discipline (evs : List HandshakeEvent) :
    (runHandshake evs).sent.length ≤ 1
    ∧ (runHandshake evs).sent.Nodup
    ∧ (∀ n ∈ (runHandshake evs).sent, n ≠ "")
    ∧ (∀ (s : HandshakeState) (n : String), n = "" ∨ n = s.nonce →
        handshakeStep s (.challenge n) = s)
    ∧ ((∀ n, HandshakeEvent.challenge n ∈ evs → n = "") →
        (runHandshake evs).sent = []) := by
  obtain ⟨g1, g2, g3⟩ := handshake_inv_fold evs handshakeInit
    (fun _ => rfl) (by simp [handshakeInit]) (by simp [handshakeInit])
  refine ⟨g2, nodup_of_length_le_one _ g2, g3, ?_, ?_⟩
  · intro s n h
    simp [handshakeStep, h]
  · intro hall
    show (evs.foldl handshakeStep handshakeInit).sent = []
    rw [handshake_fold_id evs handshakeInit hall]
    rfl

/-- Witness for C1: a repeated nonce leaves the state unchanged, and a
trace of only empty-nonce challenges and ticks sends nothing. -/
theorem registerNode_challenge_discipline_witness :
    handshakeStep { nonce := "N", connectSent := true, sent := ["N"] }
        (.challenge "N")
      = { nonce := "N", connectSent := true, sent := ["N"] }
    ∧ (runHandshake [HandshakeEvent.challenge "", HandshakeEvent.tick,
        HandshakeEvent.challenge ""]).sent = [] := by
  constructor
  · exact (registerNode_challenge_discipline []).2.2.2.1
      { nonce := "N", connectSent := true, sent := ["N"] } "N" (Or.inr rfl)
  · refine (registerNode_challenge_discipline _).2.2.2.2 ?_
    intro n hn
    simp at hn
    tauto

/-! ## C8: suspend gate -/

theorem canSuspend_false_iff (m : PowerManager) (now : Int) :
    canSuspend m now = false ↔
      (m.wifiBusy = true ∨ m.commandBusy = true ∨
        (m.lastWakeNano ≠ 0 ∧ now - m.lastWakeNano < m.debounce)) := by
  by_cases hw : m.wifiBusy = true
  · simp [canSuspend, hw]
  · by_cases hc : m.commandBusy = true
    · simp [canSuspend, hw, hc]
    · by_cases hd : m.lastWakeNano ≠ 0 ∧ now - m.lastWakeNano < m.debounce
      · simp [canSuspend, hw, hc, hd]
      · simp [canSuspend, hw, hc, hd]

/-- C8: with suspend enabled, `Suspend` returns `ErrSuspendInProgress`
exactly when another suspend holds the `suspending` flag; otherwise it
returns `ErrSuspendBlocked` exactly when the WiFi-connecting flag or the
command-processing flag is set or a recorded wake lies closer than the
debounce; otherwise it runs `OnSuspend`, the sleep function, records the
wake time, then `OnResume` and `ResetIdle`, in that order — and when the
sleep function fails its error is returned with `OnResume` (and
`ResetIdle`) not invoked and the wake time not recorded. -/
theorem suspend_spec (m : PowerManager) (now : Int) (sleepErr : Option String)
    (henabled : m.suspendEnabled = true) :
    ((Suspend m now sleepErr).1 = .errSuspendInProgress ↔ m.suspending = true)
    ∧ (m.suspending = false →
        ((Suspend m now sleepErr).1 = .errSuspendBlocked ↔
          (m.wifiBusy = true ∨ m.commandBusy = true ∨
            (m.lastWakeNano ≠ 0 ∧ now - m.lastWakeNano < m.debounce))))
    ∧ (m.suspending = false → canSuspend m now = true →
        m.hasOnSuspend = true → m.hasOnResume = true →
        (sleepErr = none →
          Suspend m now sleepErr
            = (.ok, { m with lastWakeNano := now },
               [.onSuspend, .sleep, .onResume, .resetIdle]))
        ∧ (∀ msg, sleepErr = some msg →
            Suspend m now sleepErr = (.errSleep msg, m, [.onSuspend, .sleep]))) := by
  refine ⟨?_, ?_, ?_⟩
  · cases hs : m.suspending
    · constructor
      · intro h
        exfalso
        cases hcan : canSuspend m now
        · simp [Suspend, henabled, hs, hcan] at h
        · cases sleepErr with
          | none => simp [Suspend, henabled, hs, hcan] at h
          | some msg => simp [Suspend, henabled, hs, hcan] at h
      · intro h
        cases h
    · exact ⟨fun _ => rfl, fun _ => by simp [Suspend, henabled, hs]⟩
  · intro hs
    rw [← canSuspend_false_iff m now]
    cases hcan : canSuspend m now
    · simp [Suspend, henabled, hs, hcan]
    · cases sleepErr <;> simp [Suspend, henabled, hs, hcan]
  · intro hs hcan hons honr
    constructor
    · intro hnone
      subst hnone
      simp [Suspend, henabled, hs, hcan, hons, honr]
    · intro msg hsome
      subst hsome
      simp [Suspend, henabled, hs, hcan, hons]

/-- Witness for C8: an idle, enabled manager with no recorded wake
suspends successfully and fires the callbacks in order. -/
theorem suspend_spec_witness :
    Suspend
        { suspendEnabled := true, suspending := false, wifiBusy := false
          commandBusy := false, lastWakeNano := 0, debounce := 30 * second
          hasOnSuspend := true, hasOnResume := true } 100 none
      = (.ok,
         { suspendEnabled := true, suspending := false, wifiBusy := false
           commandBusy := false, lastWakeNano := 100, debounce := 30 * second
           hasOnSuspend := true, hasOnResume := true },
         [.onSuspend, .sleep, .onResume, .resetIdle]) :=
  ((suspend_spec
      { suspendEnabled := true, suspending := false, wifiBusy := false
        commandBusy := false, lastWakeNano := 0, debounce := 30 * second
        hasOnSuspend := true, hasOnResume := true } 100 none rfl).2.2
    rfl (by decide) rfl rfl).1 rfl

/-! ## C9: scene-state push arithmetic -/

theorem applyPushes_length (pushes : List A2UIPush) :
    ∀ s : List A2UIComponent,
      (applyPushes s pushes).length
        = pushes.foldl
            (fun acc p => if p.replace then p.components.length
              else acc + p.components.length) s.length := by
  induction pushes with
  | nil => intro s; rfl
  | cons p rest ih =>
      intro s
      show (applyPushes (ApplyPush s p) rest).length = _
      rw [ih (ApplyPush s p)]
      show _ = rest.foldl _ (if p.replace then p.components.length
        else s.length + p.components.length)
      congr 1
      by_cases hr : p.replace <;> simp [ApplyPush, hr]

/-- C9: a push with the replace flag substitutes the scene's component
list and a push without it appends, so for any push sequence applied to
the empty scene the component count equals the running sum that a
replace push resets to its own count; `Reset` empties the scene. -/
theorem a2ui_push_count_law (pushes : List A2UIPush) :
    (applyPushes [] pushes).length = specComponentTotal pushes
    ∧ (∀ (s : List A2UIComponent) (p : A2UIPush),
        p.replace = true → ApplyPush s p = p.components)
    ∧ (∀ (s : List A2UIComponent) (p : A2UIPush),
        p.replace = false → ApplyPush s p = s ++ p.components)
    ∧ (∀ s : List A2UIComponent, sceneReset s = []) := by
  refine ⟨?_, ?_, ?_, fun s => rfl⟩
  · exact applyPushes_length pushes []
  · intro s p h
    simp [ApplyPush, h]
  · intro s p h
    simp [ApplyPush, h]

/-- Witness for C9: a replace push drops the existing component and a
plain push appends to it. -/
theorem a2ui_push_count_law_witness :
    ApplyPush [defaultComponent]
        { components := [defaultComponent, defaultComponent], replace := true }
      = [defaultComponent, defaultComponent]
    ∧ ApplyPush [defaultComponent]
        { components := [defaultComponent], replace := false }
      = [defaultComponent, defaultComponent] :=
  ⟨(a2ui_push_count_law []).2.1 [defaultComponent]
      { components := [defaultComponent, defaultComponent], replace := true } rfl,
   (a2ui_push_count_law []).2.2.1 [defaultComponent]
      { components := [defaultComponent], replace := false } rfl⟩

/-! ## C2: touch-action event shape -/

/-- C2 (code evaluated at the failing input): with the scenario-3 box
rendered and a sender configured, a touch at (1, 1) makes `HandleTouch`
call `SendEvent` with method `"canvas.a2ui.action"` and the bare payload
map — not with method `"node.event"` wrapping `NodeEventParams` as the
spec and the repository's own `TestHandlerTouchEventWrapper` require.
The payload fields (action type, raw bytes, x, y, time) and the
no-match / no-sender silent drops do match the claim. -/
theorem handleTouch_divergence :
    HandleTouch [tapTarget] true 1 1 1234
      = some { method := "canvas.a2ui.action", payloadType := "tap"
               payloadRaw := some (JVal.obj [("foo", JVal.str "bar")])
               x := 1, y := 1, time := 1234 }
    ∧ "canvas.a2ui.action" ≠ "node.event"
    ∧ HandleTouch [tapTarget] false 1 1 1234 = none
    ∧ (∀ x y now : Int, HandleTouch [] true x y now = none) := by
  exact ⟨rfl, by decide, rfl, fun x y now => rfl⟩

/-! ## C6: derived device identity -/

theorem hexDigitChar_mem (i : Nat) :
    hexDigitChar (i % 16) ∈ "0123456789abcdef".data := by
  have h : i % 16 < 16 := Nat.mod_lt _ (by norm_num)
  set j := i % 16 with hj
  clear_value j
  interval_cases j <;> decide

theorem hexEncodeBytes_chars (bs : List Nat) :
    ∀ c ∈ (hexEncodeBytes bs).data, c ∈ "0123456789abcdef".data := by
  intro c hc
  simp only [hexEncodeBytes] at hc
  rw [List.mem_flatten] at hc
  obtain ⟨l, hl, hcl⟩ := hc
  rw [List.mem_map] at hl
  obtain ⟨b, _, rfl⟩ := hl
  simp only [byteHex, List.mem_cons, List.mem_singleton] at hcl
  rcases hcl with rfl | rfl | h
  · exact hexDigitChar_mem _
  · exact hexDigitChar_mem _
  · cases h

/-- C6: whenever `LoadOrCreateIdentity` succeeds, the returned device ID
is the lowercase-hex SHA-256 of the raw public key (every character is a
lowercase hex digit), and when the stored file's ID was empty or
mismatched, the derived value wins and the file is rewritten with the
derived device ID. -/
theorem loadOrCreateIdentity_deviceID (env : CryptoEnv) (fs : IdentityFs)
    (ident : DeviceIdentity) (fsOut : IdentityFs)
    (h : LoadOrCreateIdentity env fs = some (ident, fsOut)) :
    ident.deviceID = deviceIDFromPublicKey env.sha256 ident.publicKey
    ∧ (∀ c ∈ ident.deviceID.data, c ∈ "0123456789abcdef".data)
    ∧ (∀ f, fs = .stored f →
        (f.deviceID = "" ∨ f.deviceID ≠ deviceIDFromPublicKey env.sha256 ident.publicKey) →
        fsOut = .stored { f with deviceID := ident.deviceID }) := by
  cases fs with
  | corrupt => simp [LoadOrCreateIdentity] at h
  | absent =>
      cases hpub : env.marshalPublicKeyPem env.generatedPublicKey with
      | none => simp [LoadOrCreateIdentity, hpub] at h
      | some pubPem =>
          cases hpriv : env.marshalPrivateKeyPem env.generatedPrivateKey with
          | none => simp [LoadOrCreateIdentity, hpub, hpriv] at h
          | some privPem =>
              simp only [LoadOrCreateIdentity, hpub, hpriv,
                Option.some.injEq, Prod.mk.injEq] at h
              obtain ⟨hident, hout⟩ := h
              subst hident
              refine ⟨rfl, hexEncodeBytes_chars _, ?_⟩
              intro f hf
              exact absurd hf (by simp)
  | stored f =>
      by_cases hpem : f.publicKeyPem = "" ∨ f.privateKeyPem = ""
      · simp [LoadOrCreateIdentity, hpem] at h
      · cases hpub : env.parsePublicKeyPem f.publicKeyPem with
        | none => simp [LoadOrCreateIdentity, hpem, hpub] at h
        | some pub =>
            cases hpriv : env.parsePrivateKeyPem f.privateKeyPem with
            | none => simp [LoadOrCreateIdentity, hpem, hpub, hpriv] at h
            | some priv =>
                by_cases hmis : f.deviceID = ""
                    ∨ f.deviceID ≠ deviceIDFromPublicKey env.sha256 pub
                · simp only [LoadOrCreateIdentity, hpem, hpub, hpriv, hmis,
                    if_true, if_false, Option.some.injEq, Prod.mk.injEq] at h
                  obtain ⟨hident, hout⟩ := h
                  subst hident
                  refine ⟨rfl, hexEncodeBytes_chars _, ?_⟩
                  intro f' hf' _
                  obtain rfl : f = f' := by simpa using hf'
                  exact hout.symm
                · simp only [LoadOrCreateIdentity, hpem, hpub, hpriv, hmis,
                    if_true, if_false, Option.some.injEq, Prod.mk.injEq] at h
                  obtain ⟨hident, hout⟩ := h
                  subst hident
                  push_neg at hmis
                  obtain ⟨hne, heq⟩ := hmis
                  refine ⟨heq, ?_, ?_⟩
                  · rw [heq]
                    exact hexEncodeBytes_chars _
                  · intro f' hf' hcontra
                    obtain rfl : f = f' := by simpa using hf'
                    rcases hcontra with h' | h'
                    · exact absurd h' hne
                    · exact absurd heq h'

/-- Witness for C6: a concrete environment and a stored file whose ID is
stale — the load rewrites the file with the derived ID `"ab"`. -/
theorem loadOrCreateIdentity_deviceID_witness :
    LoadOrCreateIdentity
        { sha256 := fun _ => [171]
          parsePublicKeyPem := fun _ => some [1]
          parsePrivateKeyPem := fun _ => some [2]
          generatedPublicKey := [1], generatedPrivateKey := [2]
          marshalPublicKeyPem := fun _ => some "PUBPEM"
          marshalPrivateKeyPem := fun _ => some "PRIVPEM"
          nowMs := 0 }
        (.stored { version := 1, deviceID := "stale"
                   publicKeyPem := "PUBPEM", privateKeyPem := "PRIVPEM"
                   createdAtMs := 7 })
      = some ({ deviceID := "ab", publicKeyPem := "PUBPEM"
                privateKeyPem := "PRIVPEM", publicKey := [1], privateKey := [2] },
          .stored { version := 1, deviceID := "ab"
                    publicKeyPem := "PUBPEM", privateKeyPem := "PRIVPEM"
                    createdAtMs := 7 })
    ∧ "ab" = deviceIDFromPublicKey (fun _ => [171]) [1] := by
  have h := loadOrCreateIdentity_deviceID
    { sha256 := fun _ => [171]
      parsePublicKeyPem := fun _ => some [1]
      parsePrivateKeyPem := fun _ => some [2]
      generatedPublicKey := [1], generatedPrivateKey := [2]
      marshalPublicKeyPem := fun _ => some "PUBPEM"
      marshalPrivateKeyPem := fun _ => some "PRIVPEM"
      nowMs := 0 }
    (.stored { version := 1, deviceID := "stale"
               publicKeyPem := "PUBPEM", privateKeyPem := "PRIVPEM"
               createdAtMs := 7 })
    { deviceID := "ab", publicKeyPem := "PUBPEM"
      privateKeyPem := "PRIVPEM", publicKey := [1], privateKey := [2] }
    (.stored { version := 1, deviceID := "ab"
               publicKeyPem := "PUBPEM", privateKeyPem := "PRIVPEM"
               createdAtMs := 7 })
    (by rfl)
  exact ⟨rfl, h.1⟩

/-! ## C10: A2UI push decoding acceptance -/

theorem decodeBareComponent_ok {v : JVal} {p : A2UIPush}
    (h : decodeBareComponent v = .ok p) :
    ∃ c, unmarshalA2UIComponent v = some c ∧ c.type ≠ "" := by
  unfold decodeBareComponent at h
  cases hc : unmarshalA2UIComponent v with
  | none => simp only [hc] at h; cases h
  | some c =>
      simp only [hc] at h
      by_cases ht : c.type ≠ ""
      · exact ⟨c, rfl, ht⟩
      · rw [if_neg ht] at h; cases h

/-- C10: `DecodeA2UIPush` accepts exactly the payloads that unmarshal to
a push envelope with a non-empty components list or to a bare component
with a non-empty type tag; in particular the well-formed envelope
`{"components":[],"replace":true}` is rejected with
`"invalid A2UI payload"`, so a replace-with-empty push cannot be
expressed and `handleA2UIPush` leaves the scene state unchanged on that
payload. -/
theorem decodeA2UIPush_acceptance (v : JVal) :
    ((∃ p, DecodeA2UIPush v = .ok p) ↔
      ((∃ q, unmarshalA2UIPush v = some q ∧ q.components ≠ [])
        ∨ (∃ c, unmarshalA2UIComponent v = some c ∧ c.type ≠ "")))
    ∧ DecodeA2UIPush
        (JVal.obj [("components", JVal.arr []), ("replace", JVal.bool true)])
      = .error "invalid A2UI payload"
    ∧ (∀ s, handleA2UIPushScene s
        (JVal.obj [("components", JVal.arr []), ("replace", JVal.bool true)]) = s) := by
  have hreject : DecodeA2UIPush
      (JVal.obj [("components", JVal.arr []), ("replace", JVal.bool true)])
      = .error "invalid A2UI payload" := rfl
  refine ⟨⟨?_, ?_⟩, hreject, ?_⟩
  · rintro ⟨p, hp⟩
    unfold DecodeA2UIPush at hp
    cases hq : unmarshalA2UIPush v with
    | some q =>
        simp only [hq] at hp
        by_cases hlen : q.components.length > 0
        · exact Or.inl ⟨q, rfl, List.ne_nil_of_length_pos hlen⟩
        · rw [if_neg hlen] at hp
          exact Or.inr (decodeBareComponent_ok hp)
    | none =>
        simp only [hq] at hp
        exact Or.inr (decodeBareComponent_ok hp)
  · intro h
    unfold DecodeA2UIPush
    rcases h with ⟨q, hq, hne⟩ | ⟨c, hc, ht⟩
    · refine ⟨q, ?_⟩
      simp only [hq]
      rw [if_pos (List.length_pos.mpr hne)]
    · have hbare : decodeBareComponent v = .ok { components := [c], replace := false } := by
        unfold decodeBareComponent
        simp only [hc]
        rw [if_pos ht]
      cases hq : unmarshalA2UIPush v with
      | none =>
          refine ⟨{ components := [c], replace := false }, ?_⟩
          simp only [hq]
          exact hbare
      | some q =>
          by_cases hlen : q.components.length > 0
          · refine ⟨q, ?_⟩
            simp only [hq]
            rw [if_pos hlen]
          · refine ⟨{ components := [c], replace := false }, ?_⟩
            simp only [hq]
            rw [if_neg hlen]
            exact hbare
  · intro s
    show handleA2UIPushScene s _ = s
    unfold handleA2UIPushScene
    rw [hreject]

/-- Witness for C10: the payloads of `TestDecodeA2UIPush` — a one-element
envelope and a bare text component — are accepted, and the empty-replace
envelope leaves a one-component scene unchanged. -/
theorem decodeA2UIPush_acceptance_witness :
    (∃ p, DecodeA2UIPush
        (JVal.obj [("components",
          JVal.arr [JVal.obj [("type", JVal.str "text"), ("text", JVal.str "hi")]])])
      = .ok p)
    ∧ (∃ p, DecodeA2UIPush
        (JVal.obj [("type", JVal.str "text"), ("text", JVal.str "hi")]) = .ok p)
    ∧ handleA2UIPushScene [defaultComponent]
        (JVal.obj [("components", JVal.arr []), ("replace", JVal.bool true)])
      = [defaultComponent] := by
  refine ⟨?_, ?_, (decodeA2UIPush_acceptance (JVal.obj [])).2.2 [defaultComponent]⟩
  · exact (decodeA2UIPush_acceptance _).1.mpr
      (Or.inl ⟨_, rfl, by simp⟩)
  · exact (decodeA2UIPush_acceptance _).1.mpr
      (Or.inr ⟨_, rfl, by decide⟩)

end OpenclawKobo
